import Mathlib

/-!
# Verification of the `fasttrain` training-loop core

A shallow embedding of the repository's two source files:

* `src/history.py` — the `History` running-statistics structure
  (an insertion-ordered mapping from metric name to an append-only list of
  floats, with an `average` accessor, JSON round-trip helpers and
  `__getitem__`);
* `src/fasttrain/train/trainer.py` — the `Trainer` class: the epoch/batch
  training loop (`_training_loop`, `_train`, `_validate`), the callback
  dispatch points, the cooperative stop flag `_is_training`, the device
  check at the top of `train`, and `_setup_callbacks`.

Python scalars are modelled with `ℚ` for floats and `ℤ` for ints (ideal
arithmetic; no floating-point rounding is relevant to the claims).
Python dicts are modelled as insertion-ordered association lists, matching
dict iteration order.  The tensor library (forward/backward, optimizer,
data loaders, `find_suitable_device`) is opaque: the engine is parametrised
by the per-batch loss value and user metrics it would produce, and by the
device that `find_suitable_device` would return.
-/

set_option maxRecDepth 8000

/-- A Python numeric value handed to `History.update`: either an `int` or a
`float`.  (`src/history.py` line 35: `if not isinstance(v, float): v = float(v)`.) -/
inductive PyNum where
  | int : Int → PyNum
  | float : ℚ → PyNum
deriving DecidableEq, Repr

/-- The coercion `float(v)` applied by `History.update` to a non-float value;
a value that is already a float is stored unchanged. -/
def PyNum.toFloat : PyNum → ℚ
  | .int n => (n : ℚ)
  | .float q => q

/-- The backing store `History._stats_history`: a `defaultdict(list)`, i.e. an
insertion-ordered mapping from metric name to the list of recorded floats. -/
abbrev History := List (String × List ℚ)

/-- A flat metrics mapping (Python dict of metric name to numeric value). -/
abbrev Metrics := List (String × PyNum)

/-- Ordered association-list lookup (Python `d[k]` on a plain dict, first
matching key; keys are unique in any dict built by the code). -/
def alookup {α : Type} : List (String × α) → String → Option α
  | [], _ => none
  | (k', v) :: rest, k => if k' = k then some v else alookup rest k

/-- `self._stats_history[k].append(v)`: append `v` to the list stored under
`k`, creating the entry (at the end, as `defaultdict` insertion does) when
`k` is missing. -/
def histAppend : History → String → ℚ → History
  | [], k, v => [(k, [v])]
  | (k', vs) :: rest, k, v =>
      if k' = k then (k', vs ++ [v]) :: rest else (k', vs) :: histAppend rest k v

/-- `History.update(stats)` (`src/history.py` lines 33-37): for each key/value
pair of `stats` in iteration order, coerce the value to float and append it
under the key. -/
def History.update (h : History) (stats : Metrics) : History :=
  stats.foldl (fun acc kv => histAppend acc kv.1 kv.2.toFloat) h

/-- `History.average` (`src/history.py` lines 50-55): a mapping from every
known key to `sum(v) / len(v)` over its recorded values. -/
def History.average (h : History) : List (String × ℚ) :=
  h.map (fun kv => (kv.1, kv.2.sum / (kv.2.length : ℚ)))

/-- `defaultdict.__getitem__` on the backing store: a missing key would be
given a fresh empty list (this is what the guard in `History.__getitem__`
prevents from ever happening). -/
def ddSubscript (h : History) (k : String) : List ℚ × History :=
  match alookup h k with
  | some vs => (vs, h)
  | none => ([], h ++ [(k, [])])

/-- `key in self._stats_history` — a pure containment test (it does not
insert a default entry). -/
def histMem (h : History) (k : String) : Bool :=
  (alookup h k).isSome

/-- `History.__getitem__` (`src/history.py` lines 42-45): raise `KeyError`
when the key is absent, otherwise subscript the backing store.  The second
component is the state of the `History` after the access. -/
def History.getitem (h : History) (k : String) : Except String (List ℚ) × History :=
  if histMem h k then
    let p := ddSubscript h k
    (Except.ok p.1, p.2)
  else
    (Except.error (("KeyError: ") ++ k), h)

/-- `History.from_json` (`src/history.py` lines 23-27): build a `History`
whose backing store is `defaultdict(list, stats_history)` with
`stats_history` the decoded JSON mapping. -/
def History.from_json (m : List (String × List ℚ)) : History := m

/-- Python attribute lookup for the data attributes of a `History` instance:
the only attribute ever assigned is `_stats_history`, and the class defines
no attribute named `history`. -/
def History.dataAttr (h : History) (name : String) : Option History :=
  if name = "_stats_history" then some h else none

/-- `History.to_json` (`src/history.py` lines 29-31).  The body is
`with open(_add_ext(file_name, "json"), "r") as output_file:
 json.dump(self.history, output_file, indent=indent_level)`.
The target file is opened with mode `"r"`: if it does not exist the `open`
raises `FileNotFoundError`; otherwise `self.history` is evaluated, and since
the instance has no attribute `history` (its store is `_stats_history`) an
`AttributeError` is raised before anything is written.  (Even if the
attribute existed, the handle is read-only, so `json.dump` could never
write.)  Returns the serialized mapping on the impossible success path. -/
def History.to_json (h : History) (fileExists : Bool) : Except String (List (String × List ℚ)) :=
  if !fileExists then
    Except.error ("FileNotFoundError")
  else
    match h.dataAttr ("history") with
    | some d => Except.ok d
    | none => Except.error ("AttributeError: no attribute history")

/-- Python dict assignment `m[k] = v`: replace in place when the key exists,
otherwise append the pair at the end. -/
def dictSet {α : Type} (m : List (String × α)) (k : String) (v : α) : List (String × α) :=
  if m.any (fun kv => kv.1 == k) then
    m.map (fun kv => if kv.1 == k then (kv.1, v) else kv)
  else m ++ [(k, v)]

/-- Python dict in-place merge `m |= m'`: assign every pair of `m'` in order. -/
def dictMerge {α : Type} (m m' : List (String × α)) : List (String × α) :=
  m'.foldl (fun acc kv => dictSet acc kv.1 kv.2) m

/-- The callback dispatch points of `trainer.py`.  The batch-level and
validation hooks are tagged with the (1-based) epoch index in which they are
dispatched: at runtime the hook receives only the batch number, but inside a
single run each dispatch point occurs at most once, so the tag merely names
the position of the dispatch in the run. -/
inductive Event where
  | trainBegin : Event
  | trainEnd : Event
  | epochBegin : Nat → Event
  | epochEnd : Nat → Event
  | trainBatchBegin : Nat → Nat → Event
  | trainBatchEnd : Nat → Nat → Event
  | validationBegin : Nat → Event
  | validationEnd : Nat → Event
  | validationBatchBegin : Nat → Nat → Event
  | validationBatchEnd : Nat → Nat → Event
deriving DecidableEq, Repr

/-- The engine state threaded through a run: the list of hook dispatches so
far (in order) and the cooperative stop flag `Trainer._is_training`. -/
structure EState where
  trace : List Event
  flag : Bool
deriving DecidableEq, Repr

/-- The joint effect of the registered callbacks at a dispatch point: `true`
means some callback calls `trainer._stop_training()` during that hook.  A
callback can only lower the flag, never raise it. -/
abbrev StopPolicy := Event → Bool

/-- Dispatch one hook to all callbacks (`Trainer._on_*`): the event is
appended to the run's dispatch record and the stop flag is lowered when some
callback requests a stop. -/
def dispatch (pol : StopPolicy) (s : EState) (ev : Event) : EState :=
  { trace := s.trace ++ [ev], flag := s.flag && !(pol ev) }

/-- The data of one `train(...)` call that the loop observes.  The opaque
collaborators (model forward/backward, optimizer, data loaders) show up only
through `lossValue`/`evalMetrics`: the loss `loss.item()` and the user metric
mapping `eval_metrics(...) or ` empty produced for a given phase
(`true` = training phase), epoch and batch index. -/
structure RunCfg where
  numEpochs : Int
  numTrainBatches : Nat
  numValBatches : Option Nat
  evalMetrics : Bool → Nat → Nat → Metrics
  lossValue : Bool → Nat → Nat → ℚ

/-- The metrics folded into the phase history for one training batch
(`trainer.py` lines 276-277): `metrics = self.eval_metrics(...) or ` empty,
then `metrics["loss"] = loss_value`. -/
def trainBatchMetrics (cfg : RunCfg) (e b : Nat) : Metrics :=
  dictSet (cfg.evalMetrics true e b) ("loss") (PyNum.float (cfg.lossValue true e b))

/-- The metrics folded into the phase history for one validation batch
(`trainer.py` lines 298-300): user metrics re-keyed by the dict
comprehension with keys `"val_" + k`, then `metrics['val_loss'] = loss_value`. -/
def valBatchMetrics (cfg : RunCfg) (e b : Nat) : Metrics :=
  dictSet ((cfg.evalMetrics false e b).map (fun kv => (("val_") ++ kv.1, kv.2)))
    ("val_loss") (PyNum.float (cfg.lossValue false e b))

/-- The batch loop of `Trainer._train` (`trainer.py` lines 270-282).  The
first `Nat` argument is the number of batches the data loader still has to
yield, the second the next value of `enumerate`'s `batch_num`; `ph` is the
phase-local `History`.  Per batch: dispatch `on_train_batch_begin`, break if
stopped, fold the batch metrics, dispatch `on_train_batch_end`, break if
stopped. -/
def trainBatchLoop (cfg : RunCfg) (pol : StopPolicy) (e : Nat) :
    Nat → Nat → History → EState → History × EState
  | 0, _, ph, s => (ph, s)
  | r + 1, b, ph, s =>
    let s1 := dispatch pol s (Event.trainBatchBegin e b)
    if s1.flag then
      let ph1 := History.update ph (trainBatchMetrics cfg e b)
      let s2 := dispatch pol s1 (Event.trainBatchEnd e b)
      if s2.flag then trainBatchLoop cfg pol e r (b + 1) ph1 s2
      else (ph1, s2)
    else (ph, s1)

/-- `Trainer._train` (`trainer.py` lines 265-284): run the batch loop on a
fresh phase `History` and return `history.average`. -/
def trainPhase (cfg : RunCfg) (pol : StopPolicy) (e : Nat) (s : EState) :
    List (String × ℚ) × EState :=
  let p := trainBatchLoop cfg pol e cfg.numTrainBatches 0 [] s
  (History.average p.1, p.2)

/-- The batch loop of `Trainer._validate` (`trainer.py` lines 292-305): same
shape as the training batch loop, with the validation batch hooks and the
`val_`-prefixed batch metrics, and no backward/step. -/
def valBatchLoop (cfg : RunCfg) (pol : StopPolicy) (e : Nat) :
    Nat → Nat → History → EState → History × EState
  | 0, _, ph, s => (ph, s)
  | r + 1, b, ph, s =>
    let s1 := dispatch pol s (Event.validationBatchBegin e b)
    if s1.flag then
      let ph1 := History.update ph (valBatchMetrics cfg e b)
      let s2 := dispatch pol s1 (Event.validationBatchEnd e b)
      if s2.flag then valBatchLoop cfg pol e r (b + 1) ph1 s2
      else (ph1, s2)
    else (ph, s1)

/-- `Trainer._validate` (`trainer.py` lines 286-307), for a validation data
loader yielding `n` batches.  Note: `_validate` dispatches no
`validation_begin`/`validation_end` hook — `_on_validation_begin` and
`_on_validation_end` (lines 169-175) have no call site in the source. -/
def valPhase (cfg : RunCfg) (pol : StopPolicy) (n e : Nat) (s : EState) :
    List (String × ℚ) × EState :=
  let p := valBatchLoop cfg pol e n 0 [] s
  (History.average p.1, p.2)

/-- Phase averages are Python floats when folded into the run `History`. -/
def floatMetrics (m : List (String × ℚ)) : Metrics :=
  m.map (fun kv => (kv.1, PyNum.float kv.2))

/-- The `while self.is_training and current_epoch_num <= num_epochs` loop of
`Trainer._training_loop` (`trainer.py` lines 320-334).  The first argument is
the structural fuel `num_epochs - current_epoch_num + 1` (the number of
iterations the condition still admits), the second is `current_epoch_num`;
since the counter increases by exactly one per iteration the guard
`current_epoch_num <= num_epochs` holds exactly while the fuel is positive. -/
def epochLoop (cfg : RunCfg) (pol : StopPolicy) :
    Nat → Nat → History → EState → History × EState
  | 0, _, h, s => (h, s)
  | r + 1, cur, h, s =>
    if s.flag then
      let s1 := dispatch pol s (Event.epochBegin cur)
      if s1.flag then
        let tp := trainPhase cfg pol cur s1
        let mp : List (String × ℚ) × EState :=
          match cfg.numValBatches with
          | some n =>
            let vp := valPhase cfg pol n cur tp.2
            (dictMerge tp.1 vp.1, vp.2)
          | none => tp
        let h1 := History.update h (floatMetrics mp.1)
        let s4 := dispatch pol mp.2 (Event.epochEnd cur)
        if s4.flag then epochLoop cfg pol r (cur + 1) h1 s4 else (h1, s4)
      else (h, s1)
    else (h, s)

/-- `Trainer._training_loop` (`trainer.py` lines 309-339): set
`_is_training = True`, dispatch `on_train_begin`, run the epoch loop from
`current_epoch_num = 1`, then `_stop_training()` (force the flag down) and
dispatch `on_train_end`.  Returns the run `History` and the final engine
state. -/
def trainingLoop (cfg : RunCfg) (pol : StopPolicy) : History × EState :=
  let s0 := dispatch pol { trace := [], flag := true } Event.trainBegin
  let p := epochLoop cfg pol cfg.numEpochs.toNat 1 [] s0
  let s2 := dispatch pol { trace := p.2.trace, flag := false } Event.trainEnd
  (p.1, s2)

/-- The values recorded so far under a key (empty when the key is absent). -/
def histVals (h : History) (k : String) : List ℚ :=
  (alookup h k).getD []

/-- The float values a single `update(stats)` call appends under key `k`,
in iteration order. -/
def valsFor (stats : Metrics) (k : String) : List ℚ :=
  (stats.filter (fun kv => kv.1 == k)).map (fun kv => kv.2.toFloat)

/-- The float values appended under key `k` by a whole sequence of `update`
calls, in append order. -/
def appended (updates : List Metrics) (k : String) : List ℚ :=
  valsFor updates.flatten k

lemma alookup_histAppend_same (h : History) (k : String) (v : ℚ) :
    alookup (histAppend h k v) k = some (histVals h k ++ [v]) := by
  induction h with
  | nil => simp [histAppend, alookup, histVals]
  | cons kv rest ih =>
    obtain ⟨k', vs⟩ := kv
    by_cases hk : k' = k
    · subst hk
      simp [histAppend, alookup, histVals]
    · simp [histAppend, alookup, hk, histVals] at ih ⊢
      exact ih

lemma alookup_histAppend_ne (h : History) (k k' : String) (v : ℚ) (hne : k ≠ k') :
    alookup (histAppend h k v) k' = alookup h k' := by
  induction h with
  | nil => simp [histAppend, alookup, hne]
  | cons kv rest ih =>
    obtain ⟨k0, vs⟩ := kv
    by_cases hk : k0 = k
    · subst hk
      simp [histAppend, alookup, hne]
    · simp [histAppend, alookup, hk]
      split <;> simp_all [alookup]

lemma histVals_update (h : History) (stats : Metrics) (k : String) :
    histVals (History.update h stats) k = histVals h k ++ valsFor stats k := by
  induction stats generalizing h with
  | nil => simp [History.update, valsFor]
  | cons kv rest ih =>
    have step : History.update h (kv :: rest)
        = History.update (histAppend h kv.1 kv.2.toFloat) rest := by
      simp [History.update]
    rw [step, ih]
    by_cases hk : kv.1 = k
    · have : histVals (histAppend h kv.1 kv.2.toFloat) k = histVals h k ++ [kv.2.toFloat] := by
        subst hk
        simp [histVals, alookup_histAppend_same]
      rw [this]
      simp [valsFor, hk, List.filter_cons]
    · have : histVals (histAppend h kv.1 kv.2.toFloat) k = histVals h k := by
        simp [histVals, alookup_histAppend_ne _ _ _ _ hk]
      rw [this]
      simp [valsFor, List.filter_cons, hk]

lemma histVals_foldl (updates : List Metrics) (h : History) (k : String) :
    histVals (updates.foldl History.update h) k = histVals h k ++ appended updates k := by
  induction updates generalizing h with
  | nil => simp [appended, valsFor]
  | cons u us ih =>
    simp only [List.foldl_cons]
    rw [ih, histVals_update]
    simp [appended, valsFor, List.filter_append]

lemma alookup_average (h : History) (k : String) :
    alookup (History.average h) k
      = (alookup h k).map (fun vs => vs.sum / (vs.length : ℚ)) := by
  induction h with
  | nil => simp [History.average, alookup]
  | cons kv rest ih =>
    by_cases hk : kv.1 = k
    · simp [History.average, alookup, hk]
    · simp [History.average, alookup, hk] at ih ⊢
      exact ih

/-- **C2.** For every sequence of `update` calls on a `History` created empty
and every key that was updated, `average[key]` is the arithmetic mean
(sum divided by count) of exactly the values appended under that key, each
coerced to float regardless of its input numeric type, independent of the
updates made to other keys. -/
theorem C2_average_is_mean (updates : List Metrics) (k : String)
    (hk : appended updates k ≠ []) :
    alookup (History.average (updates.foldl History.update [])) k
      = some ((appended updates k).sum / ((appended updates k).length : ℚ)) := by
  have hv : histVals (updates.foldl History.update []) k = appended updates k := by
    have := histVals_foldl updates [] k
    simpa [histVals, alookup] using this
  rw [alookup_average]
  cases hl : alookup (updates.foldl History.update []) k with
  | none =>
    exfalso
    apply hk
    rw [← hv]
    simp [histVals, hl]
  | some vs =>
    have hvs : vs = appended updates k := by
      rw [← hv]
      simp [histVals, hl]
    simp [hvs]

/-- Witness for C2 at a concrete input: two `update` calls appending an int
and a float under `"loss"`, whose mean is `5/2`. -/
theorem C2_average_is_mean_witness :
    appended [[(("loss"), PyNum.int 2)], [(("loss"), PyNum.float 3), (("acc"), PyNum.int 1)]] ("loss") ≠ []
    ∧ alookup (History.average
        (List.foldl History.update []
          [[(("loss"), PyNum.int 2)], [(("loss"), PyNum.float 3), (("acc"), PyNum.int 1)]])) ("loss")
      = some ((appended [[(("loss"), PyNum.int 2)], [(("loss"), PyNum.float 3), (("acc"), PyNum.int 1)]] ("loss")).sum
          / ((appended [[(("loss"), PyNum.int 2)], [(("loss"), PyNum.float 3), (("acc"), PyNum.int 1)]] ("loss")).length : ℚ)) := by
  constructor
  · simp [appended, valsFor]
  · exact C2_average_is_mean _ _ (by simp [appended, valsFor])

/-- **C9.** Item access for a key not present in a `History` fails with a
`KeyError` (never a default value) and leaves the `History` unchanged: in
particular the guard prevents the `defaultdict` backing store from creating
an empty entry for the key. -/
theorem C9_missing_key_raises (h : History) (k : String)
    (hk : alookup h k = none) :
    History.getitem h k = (Except.error (("KeyError: ") ++ k), h) := by
  simp [History.getitem, histMem, hk]

/-- Witness for C9: looking up `"acc"` in a `History` holding only `"loss"`. -/
theorem C9_missing_key_raises_witness :
    alookup [(("loss"), [(1 : ℚ)])] ("acc") = none
    ∧ History.getitem [(("loss"), [(1 : ℚ)])] ("acc")
        = (Except.error (("KeyError: ") ++ ("acc")), [(("loss"), [(1 : ℚ)])]) :=
  ⟨by simp [alookup], C9_missing_key_raises _ _ (by simp [alookup])⟩

/-- **C4 (code bug).** `History.to_json` can never succeed: the target file is
opened with mode `"r"` (so a missing file raises `FileNotFoundError`) and the
body dumps `self.history`, an attribute the class does not define (the store
is `_stats_history`), raising `AttributeError`.  Hence saving a `History`
and loading it back is impossible: the save/load round trip claimed by the
spec fails for every `History`, including ones holding only finite floats. -/
theorem C4_to_json_always_fails (h : History) (fileExists : Bool) :
    History.to_json h fileExists
      = Except.error (if fileExists then ("AttributeError: no attribute history")
          else ("FileNotFoundError")) := by
  cases fileExists <;> simp [History.to_json, History.dataAttr]

/-- A `torch.device` handle: a device type string with an optional index.
Two handles with the same canonical string may be constructed independently;
the code compares them only through `str(...)`. -/
structure TorchDevice where
  typ : String
  index : Option Nat
deriving DecidableEq, Repr

/-- `str(device)` for a `torch.device` handle. -/
def TorchDevice.toStr (d : TorchDevice) : String :=
  match d.index with
  | none => d.typ
  | some i => d.typ ++ (":") ++ (toString i)

/-- The `device` argument of `Trainer.train`: either a string (possibly the
sentinel `"auto"`) or an already-constructed `torch.device` handle. -/
inductive DeviceArg where
  | str : String → DeviceArg
  | dev : TorchDevice → DeviceArg
deriving DecidableEq, Repr

/-- `str(device)` applied to the argument. -/
def DeviceArg.pyStr : DeviceArg → String
  | .str s => s
  | .dev d => d.toStr

/-- The test `device != "auto"` (`trainer.py` line 381): a `torch.device`
handle never equals the string `"auto"`. -/
def DeviceArg.neAuto : DeviceArg → Bool
  | .str s => !(s == ("auto"))
  | .dev _ => true

/-- The outcome of a successful `Trainer.train` call: the device the run
used, the log lines emitted by the device check, the returned `History`, and
the final engine state. -/
structure TrainOutput where
  device : TorchDevice
  logs : List String
  history : History
  finalState : EState
deriving Repr

/-- `Trainer.train` (`trainer.py` lines 380-404).  `availableDevice` is the
result of the opaque `find_suitable_device(desired_device=device)` probe.
The guard is `device != "auto" and str(available_device) != str(device)`
(line 381): on a mismatch it raises `RuntimeError` when `force_device` is
set — before callbacks are registered or any hook dispatched — and
otherwise logs a fallback warning and proceeds on the probed device.  In all
non-raising paths `self._device = available_device` and the training loop
runs. -/
def Trainer.train (cfg : RunCfg) (pol : StopPolicy) (device : DeviceArg)
    (availableDevice : TorchDevice) (forceDevice : Bool) : Except String TrainOutput :=
  if device.neAuto && !(availableDevice.toStr == device.pyStr) then
    if forceDevice then
      Except.error (("Device ") ++ device.pyStr ++ (" not available"))
    else
      let p := trainingLoop cfg pol
      Except.ok { device := availableDevice,
                  logs := [("Device ") ++ device.pyStr ++ (" not available, using ") ++ availableDevice.toStr],
                  history := p.1, finalState := p.2 }
  else
    let p := trainingLoop cfg pol
    Except.ok { device := availableDevice,
                logs := [("Using ") ++ availableDevice.toStr],
                history := p.1, finalState := p.2 }

/-- **C5.** For an explicit (non-`"auto"`) device whose canonical string
differs from the probed available device's string: with `force_device` the
call fails with the `RuntimeError` raised at the top of `train` (the
`Except.error` result carries no trace — no hook was dispatched); without
`force_device` it proceeds on the auto-resolved device and emits the
fallback warning log line.  The third conjunct shows the comparison is by
canonical string form, not object identity: a differently-constructed
handle whose string form matches the available device passes the check. -/
theorem C5_device_policy (cfg : RunCfg) (pol : StopPolicy) (device : DeviceArg)
    (avail : TorchDevice)
    (hne : device.neAuto = true) (hmis : avail.toStr ≠ device.pyStr) :
    Trainer.train cfg pol device avail true
        = Except.error (("Device ") ++ device.pyStr ++ (" not available"))
    ∧ Trainer.train cfg pol device avail false
        = Except.ok { device := avail,
                      logs := [("Device ") ++ device.pyStr ++ (" not available, using ") ++ avail.toStr],
                      history := (trainingLoop cfg pol).1,
                      finalState := (trainingLoop cfg pol).2 }
    ∧ (∀ d : TorchDevice, d.toStr = avail.toStr → ∀ force : Bool,
        Trainer.train cfg pol (DeviceArg.dev d) avail force
          = Except.ok { device := avail,
                        logs := [("Using ") ++ avail.toStr],
                        history := (trainingLoop cfg pol).1,
                        finalState := (trainingLoop cfg pol).2 }) := by
  refine ⟨?_, ?_, ?_⟩
  · simp [Trainer.train, hne, hmis]
  · simp [Trainer.train, hne, hmis]
  · intro d hd force
    simp [Trainer.train, DeviceArg.neAuto, DeviceArg.pyStr, hd]

/-- Witness for C5: requesting `"cuda"` while only a handle printing `"cpu"`
is available, for an arbitrary concrete run configuration. -/
theorem C5_device_policy_witness :
    ((DeviceArg.str ("cuda")).neAuto = true
      ∧ (TorchDevice.mk ("cpu") none).toStr ≠ (DeviceArg.str ("cuda")).pyStr)
    ∧ Trainer.train
        { numEpochs := 1, numTrainBatches := 1, numValBatches := none,
          evalMetrics := fun _ _ _ => [], lossValue := fun _ _ _ => 1 }
        (fun _ => false) (DeviceArg.str ("cuda")) (TorchDevice.mk ("cpu") none) true
        = Except.error (("Device ") ++ (DeviceArg.str ("cuda")).pyStr ++ (" not available")) := by
  refine ⟨⟨by decide, by decide⟩, ?_⟩
  exact (C5_device_policy _ _ _ _ (by decide) (by decide)).1

/-- The kind of a registered callback object (its Python type): the built-in
`Tqdm` progress bar or a user-defined callback class. -/
inductive CbKind where
  | tqdm : CbKind
  | custom : Nat → CbKind
deriving DecidableEq, Repr

/-- `isinstance(user_callbacks, Tqdm)` (`trainer.py` line 235): the argument
is the whole `user_callbacks` *list* (or the `[]` default), never a `Tqdm`
instance, so the test is `False` whatever the list holds. -/
def isinstanceTqdmOfList (_ucs : List CbKind) : Bool := false

/-- `Trainer._setup_callbacks` (`trainer.py` lines 216-241), restricted to the
registration order it produces (the model/trainer/run-config back-references
carry no information relevant here).  When verbose, the built-in `Tqdm`
progress bar is appended to the (empty) callback list first; then each user
callback is appended unless `verbose and isinstance(user_callbacks, Tqdm)`
holds — note the condition tests the list, not the element. -/
def setupCallbacks (verbose : Bool) (userCallbacks : Option (List CbKind)) : List CbKind :=
  let ucs := userCallbacks.getD []
  let base : List CbKind := if verbose then [CbKind.tqdm] else []
  ucs.foldl (fun acc uc => if verbose && isinstanceTqdmOfList ucs then acc else acc ++ [uc]) base

/-- **C8 (code bug).** With verbose enabled and a user-supplied `Tqdm`
callback, registration keeps the user's progress callback as well: the skip
test `isinstance(user_callbacks, Tqdm)` is applied to the list object (a
slip for the loop variable `user_callback`), so it is always `False` and two
progress-reporting callbacks end up registered — the claim's "at most one"
fails.  The built-in bar is still placed first. -/
theorem C8_duplicate_tqdm_registered :
    setupCallbacks true (some [CbKind.tqdm]) = [CbKind.tqdm, CbKind.tqdm]
    ∧ (setupCallbacks true (some [CbKind.tqdm])).count CbKind.tqdm = 2 := by
  constructor <;> rfl

/-- **C6.** With `num_epochs <= 0` the `while` guard fails at its first check:
the run dispatches `train_begin` and then `train_end`, each exactly once and
nothing else (no epoch-, batch- or validation-level hook), and returns a
`History` with no recorded entries. -/
theorem C6_nonpositive_epochs (cfg : RunCfg) (pol : StopPolicy)
    (h : cfg.numEpochs ≤ 0) :
    trainingLoop cfg pol
      = ([], { trace := [Event.trainBegin, Event.trainEnd], flag := false }) := by
  have h0 : cfg.numEpochs.toNat = 0 := Int.toNat_of_nonpos h
  simp [trainingLoop, epochLoop, dispatch, h0]

/-- Witness for C6 at `num_epochs = -3`. -/
theorem C6_nonpositive_epochs_witness :
    ({ numEpochs := -3, numTrainBatches := 2, numValBatches := none,
       evalMetrics := fun _ _ _ => [], lossValue := fun _ _ _ => 1 } : RunCfg).numEpochs ≤ 0
    ∧ trainingLoop
        { numEpochs := -3, numTrainBatches := 2, numValBatches := none,
          evalMetrics := fun _ _ _ => [], lossValue := fun _ _ _ => 1 }
        (fun _ => false)
      = ([], { trace := [Event.trainBegin, Event.trainEnd], flag := false }) :=
  ⟨by decide, C6_nonpositive_epochs _ _ (by decide)⟩

lemma trainPhase_of_no_batches (cfg : RunCfg) (pol : StopPolicy)
    (hB : cfg.numTrainBatches = 0) (e : Nat) (s : EState) :
    trainPhase cfg pol e s = ([], s) := by
  simp [trainPhase, hB, trainBatchLoop, History.average]

lemma epochLoop_of_no_batches (cfg : RunCfg) (pol : StopPolicy)
    (hB : cfg.numTrainBatches = 0) (hV : cfg.numValBatches = none) :
    ∀ r cur s, (epochLoop cfg pol r cur [] s).1 = [] := by
  intro r
  induction r with
  | zero => intro cur s; simp [epochLoop]
  | succ r ih =>
    intro cur s
    simp only [epochLoop, trainPhase_of_no_batches cfg pol hB, hV, floatMetrics,
      History.update, List.map_nil, List.foldl_nil]
    split
    · split
      · split
        · exact ih _ _
        · simp
      · simp
    · simp

/-- **C10.** With a training batch iterable yielding zero batches and no
validation data, nothing fails: the training phase leaves the engine state
untouched and returns an empty metrics mapping (its phase `History` is empty,
so `average` performs no division at all), the per-epoch fold appends
nothing, and the returned `History` has no keys. -/
theorem C10_zero_training_batches (cfg : RunCfg) (pol : StopPolicy)
    (hB : cfg.numTrainBatches = 0) (hV : cfg.numValBatches = none) :
    (∀ e s, trainBatchLoop cfg pol e cfg.numTrainBatches 0 [] s = ([], s))
    ∧ (∀ e s, trainPhase cfg pol e s = ([], s))
    ∧ (∀ h : History, History.update h [] = h)
    ∧ (trainingLoop cfg pol).1 = [] := by
  refine ⟨?_, fun e s => trainPhase_of_no_batches cfg pol hB e s, fun h => rfl, ?_⟩
  · intro e s
    rw [hB]
    rfl
  · simp only [trainingLoop]
    exact epochLoop_of_no_batches cfg pol hB hV _ _ _

/-- Witness for C10 at a concrete configuration with an empty training set. -/
theorem C10_zero_training_batches_witness :
    (({ numEpochs := 2, numTrainBatches := 0, numValBatches := none,
        evalMetrics := fun _ _ _ => [], lossValue := fun _ _ _ => 1 } : RunCfg).numTrainBatches = 0
      ∧ ({ numEpochs := 2, numTrainBatches := 0, numValBatches := none,
           evalMetrics := fun _ _ _ => [], lossValue := fun _ _ _ => 1 } : RunCfg).numValBatches = none)
    ∧ (trainingLoop
        { numEpochs := 2, numTrainBatches := 0, numValBatches := none,
          evalMetrics := fun _ _ _ => [], lossValue := fun _ _ _ => 1 }
        (fun _ => false)).1 = [] :=
  ⟨⟨rfl, rfl⟩,
   (C10_zero_training_batches _ (fun _ => false) rfl rfl).2.2.2⟩

/-- Whether an event is one of the two validation lifecycle hooks
(`on_validation_begin` / `on_validation_end`). -/
def Event.isValLifecycle : Event → Bool
  | .validationBegin _ => true
  | .validationEnd _ => true
  | _ => false

lemma dispatch_valfree (pol : StopPolicy) (s : EState) (ev : Event)
    (hs : ∀ e ∈ s.trace, e.isValLifecycle = false) (hev : ev.isValLifecycle = false) :
    ∀ e ∈ (dispatch pol s ev).trace, e.isValLifecycle = false := by
  intro e he
  simp only [dispatch, List.mem_append, List.mem_singleton] at he
  rcases he with he | he
  · exact hs e he
  · simpa [he] using hev

lemma trainBatchLoop_valfree (cfg : RunCfg) (pol : StopPolicy) (ep : Nat) :
    ∀ r b ph s, (∀ e ∈ s.trace, e.isValLifecycle = false) →
      ∀ e ∈ (trainBatchLoop cfg pol ep r b ph s).2.trace, e.isValLifecycle = false := by
  intro r
  induction r with
  | zero => intro b ph s hs; simpa [trainBatchLoop] using hs
  | succ r ih =>
    intro b ph s hs
    have h1 := dispatch_valfree pol s (Event.trainBatchBegin ep b) hs rfl
    simp only [trainBatchLoop]
    split
    · have h2 := dispatch_valfree pol _ (Event.trainBatchEnd ep b) h1 rfl
      split
      · exact ih _ _ _ h2
      · exact h2
    · exact h1

lemma valBatchLoop_valfree (cfg : RunCfg) (pol : StopPolicy) (ep : Nat) :
    ∀ r b ph s, (∀ e ∈ s.trace, e.isValLifecycle = false) →
      ∀ e ∈ (valBatchLoop cfg pol ep r b ph s).2.trace, e.isValLifecycle = false := by
  intro r
  induction r with
  | zero => intro b ph s hs; simpa [valBatchLoop] using hs
  | succ r ih =>
    intro b ph s hs
    have h1 := dispatch_valfree pol s (Event.validationBatchBegin ep b) hs rfl
    simp only [valBatchLoop]
    split
    · have h2 := dispatch_valfree pol _ (Event.validationBatchEnd ep b) h1 rfl
      split
      · exact ih _ _ _ h2
      · exact h2
    · exact h1

lemma epochLoop_valfree (cfg : RunCfg) (pol : StopPolicy) :
    ∀ r cur h s, (∀ e ∈ s.trace, e.isValLifecycle = false) →
      ∀ e ∈ (epochLoop cfg pol r cur h s).2.trace, e.isValLifecycle = false := by
  intro r
  induction r with
  | zero => intro cur h s hs; simpa [epochLoop] using hs
  | succ r ih =>
    intro cur h s hs
    simp only [epochLoop]
    split
    · have h1 := dispatch_valfree pol s (Event.epochBegin cur) hs rfl
      split
      · have h2 : ∀ e ∈ (trainPhase cfg pol cur (dispatch pol s (Event.epochBegin cur))).2.trace,
            e.isValLifecycle = false := by
          simp only [trainPhase]
          exact trainBatchLoop_valfree cfg pol cur _ _ _ _ h1
        cases hv : cfg.numValBatches with
        | none =>
          simp only [hv]
          have h3 := dispatch_valfree pol _ (Event.epochEnd cur) h2 rfl
          split
          · exact ih _ _ _ h3
          · exact h3
        | some n =>
          simp only [hv]
          have h2v : ∀ e ∈ (valPhase cfg pol n cur
              (trainPhase cfg pol cur (dispatch pol s (Event.epochBegin cur))).2).2.trace,
              e.isValLifecycle = false := by
            simp only [valPhase]
            exact valBatchLoop_valfree cfg pol cur _ _ _ _ h2
          have h3 := dispatch_valfree pol _ (Event.epochEnd cur) h2v rfl
          split
          · exact ih _ _ _ h3
          · exact h3
      · exact h1
    · exact hs

/-- **C3 (code bug).** No run ever dispatches `validation_begin` or
`validation_end`: `_on_validation_begin`/`_on_validation_end` are defined in
`trainer.py` (lines 169-175) but have no call site — `_validate` goes
straight to the per-batch hooks.  The second part exhibits a one-epoch run
with validation data: the validation phase runs (its batch hooks fire) with
no `validation_begin`/`validation_end` around it. -/
theorem C3_validation_lifecycle_never_dispatched :
    (∀ (cfg : RunCfg) (pol : StopPolicy) (e : Nat),
      Event.validationBegin e ∉ (trainingLoop cfg pol).2.trace
      ∧ Event.validationEnd e ∉ (trainingLoop cfg pol).2.trace)
    ∧ (trainingLoop
        { numEpochs := 1, numTrainBatches := 1, numValBatches := some 1,
          evalMetrics := fun _ _ _ => [], lossValue := fun _ _ _ => 1 }
        (fun _ => false)).2.trace
      = [Event.trainBegin, Event.epochBegin 1,
         Event.trainBatchBegin 1 0, Event.trainBatchEnd 1 0,
         Event.validationBatchBegin 1 0, Event.validationBatchEnd 1 0,
         Event.epochEnd 1, Event.trainEnd] := by
  constructor
  · intro cfg pol e
    have key : ∀ ev ∈ (trainingLoop cfg pol).2.trace, ev.isValLifecycle = false := by
      simp only [trainingLoop]
      apply dispatch_valfree
      · exact epochLoop_valfree cfg pol _ _ _ _
          (dispatch_valfree pol { trace := [], flag := true } Event.trainBegin
            (by simp) rfl)
      · rfl
    constructor
    · intro hmem
      have := key _ hmem
      simp [Event.isValLifecycle] at this
    · intro hmem
      have := key _ hmem
      simp [Event.isValLifecycle] at this
  · rfl

/-- The fold of the first `r` training-batch metric mappings of epoch `e`
(starting at batch index `b`) into a phase `History` — the pure data content
of an uninterrupted stretch of `_train`'s loop. -/
def foldB (cfg : RunCfg) (e : Nat) : Nat → Nat → History → History
  | 0, _, ph => ph
  | r + 1, b, ph => foldB cfg e r (b + 1) (History.update ph (trainBatchMetrics cfg e b))

/-- The hook dispatches of `r` uninterrupted training batches of epoch `e`
starting at batch index `b`. -/
def phaseEvs (e : Nat) : Nat → Nat → List Event
  | 0, _ => []
  | r + 1, b => Event.trainBatchBegin e b :: Event.trainBatchEnd e b :: phaseEvs e r (b + 1)

lemma pol_false_of_ne (pol : StopPolicy)
    (hpol : ∀ ev, pol ev = true ↔ ev = Event.trainBatchEnd 2 2)
    (ev : Event) (hne : ev ≠ Event.trainBatchEnd 2 2) : pol ev = false := by
  cases h : pol ev with
  | false => rfl
  | true => exact absurd ((hpol ev).mp h) hne

lemma trainBatchLoop_no_stop (cfg : RunCfg) (pol : StopPolicy) (e : Nat)
    (hq : ∀ b, pol (Event.trainBatchBegin e b) = false ∧ pol (Event.trainBatchEnd e b) = false) :
    ∀ r b ph tr, trainBatchLoop cfg pol e r b ph { trace := tr, flag := true }
      = (foldB cfg e r b ph, { trace := tr ++ phaseEvs e r b, flag := true }) := by
  intro r
  induction r with
  | zero => intro b ph tr; simp [trainBatchLoop, foldB, phaseEvs]
  | succ r ih =>
    intro b ph tr
    simp only [trainBatchLoop, dispatch, (hq b).1, (hq b).2, Bool.not_false, Bool.and_true]
    rw [ih]
    simp [foldB, phaseEvs]

lemma trainBatchLoop_stop_third (cfg : RunCfg) (pol : StopPolicy)
    (hpol : ∀ ev, pol ev = true ↔ ev = Event.trainBatchEnd 2 2) :
    ∀ r ph tr, trainBatchLoop cfg pol 2 (r + 3) 0 ph { trace := tr, flag := true }
      = (History.update (History.update (History.update ph
            (trainBatchMetrics cfg 2 0)) (trainBatchMetrics cfg 2 1)) (trainBatchMetrics cfg 2 2),
         { trace := tr ++ [Event.trainBatchBegin 2 0, Event.trainBatchEnd 2 0,
              Event.trainBatchBegin 2 1, Event.trainBatchEnd 2 1,
              Event.trainBatchBegin 2 2, Event.trainBatchEnd 2 2], flag := false }) := by
  intro r ph tr
  have hb0 : pol (Event.trainBatchBegin 2 0) = false := pol_false_of_ne pol hpol _ (by simp)
  have he0 : pol (Event.trainBatchEnd 2 0) = false := pol_false_of_ne pol hpol _ (by simp)
  have hb1 : pol (Event.trainBatchBegin 2 1) = false := pol_false_of_ne pol hpol _ (by simp)
  have he1 : pol (Event.trainBatchEnd 2 1) = false := pol_false_of_ne pol hpol _ (by simp)
  have hb2 : pol (Event.trainBatchBegin 2 2) = false := pol_false_of_ne pol hpol _ (by simp)
  have he2 : pol (Event.trainBatchEnd 2 2) = true := (hpol _).mpr rfl
  show trainBatchLoop cfg pol 2 (r + 2 + 1) 0 ph { trace := tr, flag := true } = _
  simp only [trainBatchLoop, dispatch, hb0, he0, hb1, he1, hb2, he2,
    Bool.not_false, Bool.not_true, Bool.and_true, Bool.and_false]
  simp

lemma phaseEvs_no_trainEnd (e : Nat) :
    ∀ r b, (phaseEvs e r b).count Event.trainEnd = 0 := by
  intro r
  induction r with
  | zero => intro b; simp [phaseEvs]
  | succ r ih => intro b; simp [phaseEvs, List.count_cons, ih]

lemma epochLoop_quiet_step (cfg : RunCfg) (pol : StopPolicy)
    (hV : cfg.numValBatches = none) (cur : Nat)
    (hq : ∀ b, pol (Event.trainBatchBegin cur b) = false ∧ pol (Event.trainBatchEnd cur b) = false)
    (hqb : pol (Event.epochBegin cur) = false) (hqe : pol (Event.epochEnd cur) = false)
    (r : Nat) (h : History) (tr : List Event) :
    epochLoop cfg pol (r + 1) cur h { trace := tr, flag := true }
      = epochLoop cfg pol r (cur + 1)
          (History.update h (floatMetrics (History.average (foldB cfg cur cfg.numTrainBatches 0 []))))
          { trace := tr ++ Event.epochBegin cur :: (phaseEvs cur cfg.numTrainBatches 0 ++ [Event.epochEnd cur]),
            flag := true } := by
  simp only [epochLoop, dispatch, hqb, Bool.not_false, Bool.and_true, trainPhase]
  rw [trainBatchLoop_no_stop cfg pol cur hq]
  simp only [hV, hqe]
  simp [List.append_assoc]

lemma epochLoop_stop_second (cfg : RunCfg) (pol : StopPolicy)
    (hV : cfg.numValBatches = none)
    (hpol : ∀ ev, pol ev = true ↔ ev = Event.trainBatchEnd 2 2)
    (k : Nat) (hk : cfg.numTrainBatches = k + 3)
    (r : Nat) (h : History) (tr : List Event) :
    epochLoop cfg pol (r + 1) 2 h { trace := tr, flag := true }
      = (History.update h (floatMetrics (History.average (foldB cfg 2 3 0 []))),
         { trace := tr ++ Event.epochBegin 2 ::
              [Event.trainBatchBegin 2 0, Event.trainBatchEnd 2 0,
               Event.trainBatchBegin 2 1, Event.trainBatchEnd 2 1,
               Event.trainBatchBegin 2 2, Event.trainBatchEnd 2 2,
               Event.epochEnd 2],
           flag := false }) := by
  have hqb : pol (Event.epochBegin 2) = false := pol_false_of_ne pol hpol _ (by simp)
  simp only [epochLoop, dispatch, hqb, Bool.not_false, Bool.and_true, trainPhase]
  rw [hk, trainBatchLoop_stop_third cfg pol hpol]
  simp only [hV, Bool.false_and]
  simp [foldB, List.append_assoc]

/-- **C1.** For a run with no validation data, at least 4 epochs and at least
5 batches per epoch, a callback set that requests stop exactly during the
`train_batch_end` hook of the 3rd batch (0-based batch index 2) of epoch 2
produces a `History` built by exactly two epoch folds: the complete per-key
averages of epoch 1 over all its batches, then one partial epoch-2 entry
equal to the running average over only the first 3 batches — and nothing for
epoch 3 or later.  The `train_end` hook is dispatched exactly once. -/
theorem C1_stop_during_epoch2_batch3 (cfg : RunCfg) (pol : StopPolicy)
    (hpol : ∀ ev, pol ev = true ↔ ev = Event.trainBatchEnd 2 2)
    (hE : 4 ≤ cfg.numEpochs) (hB : 5 ≤ cfg.numTrainBatches)
    (hV : cfg.numValBatches = none) :
    (trainingLoop cfg pol).1
      = History.update
          (History.update []
            (floatMetrics (History.average (foldB cfg 1 cfg.numTrainBatches 0 []))))
          (floatMetrics (History.average (foldB cfg 2 3 0 [])))
    ∧ ((trainingLoop cfg pol).2.trace).count Event.trainEnd = 1 := by
  obtain ⟨k, hk⟩ : ∃ k, cfg.numTrainBatches = k + 3 := ⟨cfg.numTrainBatches - 3, by omega⟩
  obtain ⟨j, hj⟩ : ∃ j, cfg.numEpochs.toNat = j + 2 := ⟨cfg.numEpochs.toNat - 2, by omega⟩
  have hq1 : ∀ b, pol (Event.trainBatchBegin 1 b) = false
      ∧ pol (Event.trainBatchEnd 1 b) = false := by
    intro b
    exact ⟨pol_false_of_ne pol hpol _ (by simp), pol_false_of_ne pol hpol _ (by simp)⟩
  have hTB : pol Event.trainBegin = false := pol_false_of_ne pol hpol _ (by simp)
  have hEB1 : pol (Event.epochBegin 1) = false := pol_false_of_ne pol hpol _ (by simp)
  have hEE1 : pol (Event.epochEnd 1) = false := pol_false_of_ne pol hpol _ (by simp)
  have hrun : trainingLoop cfg pol
      = (History.update
          (History.update []
            (floatMetrics (History.average (foldB cfg 1 cfg.numTrainBatches 0 []))))
          (floatMetrics (History.average (foldB cfg 2 3 0 []))),
         { trace := ((Event.trainBegin :: Event.epochBegin 1 ::
              (phaseEvs 1 cfg.numTrainBatches 0 ++ [Event.epochEnd 1]))
              ++ Event.epochBegin 2 ::
                [Event.trainBatchBegin 2 0, Event.trainBatchEnd 2 0,
                 Event.trainBatchBegin 2 1, Event.trainBatchEnd 2 1,
                 Event.trainBatchBegin 2 2, Event.trainBatchEnd 2 2,
                 Event.epochEnd 2]) ++ [Event.trainEnd],
           flag := false }) := by
    unfold trainingLoop
    simp only [dispatch, hTB, Bool.not_false, Bool.and_true, List.nil_append]
    rw [hj, show j + 2 = (j + 1) + 1 from rfl,
      epochLoop_quiet_step cfg pol hV 1 hq1 hEB1 hEE1 (j + 1) [] [Event.trainBegin],
      epochLoop_stop_second cfg pol hV hpol k hk j _ _]
    simp
  constructor
  · rw [hrun]
  · rw [hrun]
    simp [List.count_append, List.count_cons, phaseEvs_no_trainEnd]

/-- A minimal concrete run configuration for witnesses: no user metrics and
constant loss 1. -/
def trivialCfg (ne : Int) (ntb : Nat) (nvb : Option Nat) : RunCfg :=
  { numEpochs := ne, numTrainBatches := ntb, numValBatches := nvb,
    evalMetrics := fun _ _ _ => [], lossValue := fun _ _ _ => 1 }

/-- The callback set that requests stop exactly at the `train_batch_end` hook
of epoch 2's 3rd batch (batch index 2). -/
def stopAtE2B3 : StopPolicy := fun ev => ev == Event.trainBatchEnd 2 2

/-- Witness for C1 at `num_epochs = 4` and 5 batches per epoch. -/
theorem C1_stop_during_epoch2_batch3_witness :
    ((∀ ev, stopAtE2B3 ev = true ↔ ev = Event.trainBatchEnd 2 2)
      ∧ (4 : Int) ≤ (trivialCfg 4 5 none).numEpochs
      ∧ 5 ≤ (trivialCfg 4 5 none).numTrainBatches
      ∧ (trivialCfg 4 5 none).numValBatches = none)
    ∧ ((trainingLoop (trivialCfg 4 5 none) stopAtE2B3).1
        = History.update
            (History.update []
              (floatMetrics (History.average (foldB (trivialCfg 4 5 none) 1 (trivialCfg 4 5 none).numTrainBatches 0 []))))
            (floatMetrics (History.average (foldB (trivialCfg 4 5 none) 2 3 0 [])))
      ∧ ((trainingLoop (trivialCfg 4 5 none) stopAtE2B3).2.trace).count Event.trainEnd = 1) := by
  refine ⟨⟨fun ev => by simp [stopAtE2B3], by decide, by decide, rfl⟩, ?_⟩
  exact C1_stop_during_epoch2_batch3 (trivialCfg 4 5 none) stopAtE2B3
    (fun ev => by simp [stopAtE2B3]) (by decide) (by decide) rfl

/-- The keys of a metrics mapping / history, in order. -/
def keys {α : Type} (m : List (String × α)) : List String :=
  m.map (fun kv => kv.1)

/-- Whether a metric name carries the validation marker: its first four
characters are `val_`. -/
def isValKey (s : String) : Bool :=
  s.data.take 4 == (("val_") : String).data

lemma isValKey_concat (r : String) : isValKey (("val_") ++ r) = true := by
  have hd : ((("val_") : String) ++ r).data = 'v' :: 'a' :: 'l' :: '_' :: r.data := by
    cases r
    rfl
  rw [isValKey, hd]
  rfl

lemma keys_map_pres {α β : Type} (m : List (String × α)) (g : String × α → String × β)
    (hg : ∀ kv, (g kv).1 = kv.1) : keys (m.map g) = keys m := by
  simp only [keys, List.map_map]
  exact List.map_congr_left (fun kv _ => hg kv)

lemma keys_average (h : History) : keys (History.average h) = keys h :=
  keys_map_pres h _ (fun _ => rfl)

lemma keys_floatMetrics (m : List (String × ℚ)) : keys (floatMetrics m) = keys m :=
  keys_map_pres m _ (fun _ => rfl)

lemma mem_keys_histAppend {h : History} {k : String} {v : ℚ} {k' : String}
    (hm : k' ∈ keys (histAppend h k v)) : k' ∈ keys h ∨ k' = k := by
  induction h with
  | nil => simpa [histAppend, keys] using hm
  | cons kv rest ih =>
    obtain ⟨k0, vs⟩ := kv
    simp only [histAppend] at hm
    split at hm
    · simp only [keys, List.map_cons, List.mem_cons] at hm ⊢
      tauto
    · simp only [keys, List.map_cons, List.mem_cons] at hm ⊢
      rcases hm with hm | hm
      · tauto
      · rcases ih hm with h1 | h1 <;> tauto

lemma mem_keys_update {h : History} {stats : Metrics} {k' : String}
    (hm : k' ∈ keys (History.update h stats)) : k' ∈ keys h ∨ k' ∈ keys stats := by
  induction stats generalizing h with
  | nil => simpa [History.update, keys] using hm
  | cons kv rest ih =>
    have step : History.update h (kv :: rest)
        = History.update (histAppend h kv.1 kv.2.toFloat) rest := by
      simp [History.update]
    rw [step] at hm
    rcases ih hm with h1 | h1
    · rcases mem_keys_histAppend h1 with h2 | h2
      · tauto
      · right
        simp [keys, h2]
    · right
      simp [keys] at h1 ⊢
      tauto

lemma mem_keys_dictSet {α : Type} {m : List (String × α)} {k : String} {v : α} {k' : String}
    (hm : k' ∈ keys (dictSet m k v)) : k' ∈ keys m ∨ k' = k := by
  unfold dictSet at hm
  split at hm
  · left
    rwa [keys_map_pres m _ (fun kv => by split <;> rfl)] at hm
  · simp [keys] at hm ⊢
    tauto

lemma mem_keys_valBatchMetrics {cfg : RunCfg} {e b : Nat} {k : String}
    (hm : k ∈ keys (valBatchMetrics cfg e b)) : isValKey k = true := by
  rcases mem_keys_dictSet hm with h1 | h1
  · simp only [keys, List.map_map, List.mem_map, Function.comp] at h1
    obtain ⟨kv, hmem, hk⟩ := h1
    rw [← hk]
    exact isValKey_concat kv.1
  · rw [h1]
    rfl

lemma mem_keys_trainBatchMetrics {cfg : RunCfg} {e b : Nat} {k : String}
    (hM : ∀ e' b' kv, kv ∈ cfg.evalMetrics true e' b' → isValKey kv.1 = false)
    (hm : k ∈ keys (trainBatchMetrics cfg e b)) : isValKey k = false := by
  rcases mem_keys_dictSet hm with h1 | h1
  · simp [keys] at h1
    obtain ⟨bv, hmem⟩ := h1
    exact hM e b (k, bv) hmem
  · rw [h1]
    rfl

lemma valBatchLoop_keys (cfg : RunCfg) (pol : StopPolicy) (e : Nat) :
    ∀ r b ph s, (∀ k ∈ keys ph, isValKey k = true) →
      ∀ k ∈ keys (valBatchLoop cfg pol e r b ph s).1, isValKey k = true := by
  intro r
  induction r with
  | zero => intro b ph s hph; simpa [valBatchLoop] using hph
  | succ r ih =>
    intro b ph s hph
    have hph1 : ∀ k ∈ keys (History.update ph (valBatchMetrics cfg e b)), isValKey k = true := by
      intro k hk
      rcases mem_keys_update hk with h1 | h1
      · exact hph k h1
      · exact mem_keys_valBatchMetrics h1
    simp only [valBatchLoop]
    split
    · split
      · exact ih _ _ _ hph1
      · exact hph1
    · exact hph

lemma trainBatchLoop_keys (cfg : RunCfg) (pol : StopPolicy) (e : Nat)
    (hM : ∀ e' b' kv, kv ∈ cfg.evalMetrics true e' b' → isValKey kv.1 = false) :
    ∀ r b ph s, (∀ k ∈ keys ph, isValKey k = false) →
      ∀ k ∈ keys (trainBatchLoop cfg pol e r b ph s).1, isValKey k = false := by
  intro r
  induction r with
  | zero => intro b ph s hph; simpa [trainBatchLoop] using hph
  | succ r ih =>
    intro b ph s hph
    have hph1 : ∀ k ∈ keys (History.update ph (trainBatchMetrics cfg e b)), isValKey k = false := by
      intro k hk
      rcases mem_keys_update hk with h1 | h1
      · exact hph k h1
      · exact mem_keys_trainBatchMetrics hM h1
    simp only [trainBatchLoop]
    split
    · split
      · exact ih _ _ _ hph1
      · exact hph1
    · exact hph

lemma epochLoop_keys (cfg : RunCfg) (pol : StopPolicy)
    (hV : cfg.numValBatches = none)
    (hM : ∀ e' b' kv, kv ∈ cfg.evalMetrics true e' b' → isValKey kv.1 = false) :
    ∀ r cur h s, (∀ k ∈ keys h, isValKey k = false) →
      ∀ k ∈ keys (epochLoop cfg pol r cur h s).1, isValKey k = false := by
  intro r
  induction r with
  | zero => intro cur h s hh; simpa [epochLoop] using hh
  | succ r ih =>
    intro cur h s hh
    have hphase : ∀ k ∈ keys (trainPhase cfg pol cur (dispatch pol s (Event.epochBegin cur))).1,
        isValKey k = false := by
      intro k hk
      simp only [trainPhase] at hk
      rw [keys_average] at hk
      exact trainBatchLoop_keys cfg pol cur hM _ _ _ _ (by simp [keys]) k hk
    have hh1 : ∀ k ∈ keys (History.update h
        (floatMetrics (trainPhase cfg pol cur (dispatch pol s (Event.epochBegin cur))).1)),
        isValKey k = false := by
      intro k hk
      rcases mem_keys_update hk with h1 | h1
      · exact hh k h1
      · rw [keys_floatMetrics] at h1
        exact hphase k h1
    simp only [epochLoop, hV]
    split
    · split
      · split
        · exact ih _ _ _ hh1
        · exact hh1
      · exact hh
    · exact hh

/-- **C7.** Every key a validation phase records (and hence reports through
its average) carries the `val_` marker — user metric keys are re-keyed with
the `val_` marker and the loss is recorded as `val_loss`; and in a run with
no validation data, provided the user's training metric function never
returns keys already carrying the marker, no `val_`-marked key ever appears
in the returned `History`. -/
theorem C7_val_key_discipline (cfg : RunCfg) (pol : StopPolicy) :
    (∀ n e s, ∀ k ∈ keys (valPhase cfg pol n e s).1, isValKey k = true)
    ∧ (cfg.numValBatches = none →
        (∀ e b kv, kv ∈ cfg.evalMetrics true e b → isValKey kv.1 = false) →
        ∀ k ∈ keys (trainingLoop cfg pol).1, isValKey k = false) := by
  constructor
  · intro n e s k hk
    simp only [valPhase] at hk
    rw [keys_average] at hk
    exact valBatchLoop_keys cfg pol e _ _ _ _ (by simp [keys]) k hk
  · intro hV hM k hk
    simp only [trainingLoop] at hk
    exact epochLoop_keys cfg pol hV hM _ _ _ _ (by simp [keys]) k hk

/-- Witness for C7: a one-epoch, one-batch run with constant loss; the
validation phase reports `val_loss` (marked), and the no-validation run's
`History` holds `loss`, which the theorem shows unmarked. -/
theorem C7_val_key_discipline_witness :
    ((("val_loss") ∈ keys (valPhase (trivialCfg 1 1 none) (fun _ => false) 1 1 { trace := [], flag := true }).1
        ∧ isValKey ("val_loss") = true)
      ∧ ((trivialCfg 1 1 none).numValBatches = none
        ∧ (("loss") ∈ keys (trainingLoop (trivialCfg 1 1 none) (fun _ => false)).1
          ∧ isValKey ("loss") = false))) := by
  refine ⟨⟨?_, ?_⟩, rfl, ?_, ?_⟩
  · decide
  · exact (C7_val_key_discipline (trivialCfg 1 1 none) (fun _ => false)).1 1 1
      { trace := [], flag := true } ("val_loss") (by decide)
  · decide
  · exact (C7_val_key_discipline (trivialCfg 1 1 none) (fun _ => false)).2 rfl
      (fun e b kv hkv => by simp [trivialCfg] at hkv) ("loss") (by decide)
